import Mathlib

/-
Verification of the hithlain simulator core against its specification.

The embedding covers the runner (src/hithlain/src/sim/mod.rs), the value
algebra (src/hithlain/src/sim/value.rs) and the name type of the abstract
syntax tree (src/hithlain/src/parse/ast.rs). Engine internals that live in
files outside the available sources (sim/simulation.rs, parse/span.rs,
parse/desugared_ast.rs) are modelled from the specification and carry a
doc comment saying so.
-/

namespace Hithlain

/-- Modelled from the spec: source-location metadata (parse/span.rs is not
among the sources). Only used as diagnostic payload; names must compare
and hash ignoring it. -/
structure Span where
  offset : Nat
  length : Nat
deriving DecidableEq, Repr

/-- Embeds Variable of parse/ast.rs: a name string plus an optional span.
The span field carries derivative ignore markers for PartialEq and Hash. -/
structure Variable where
  name : String
  span : Option Span
deriving DecidableEq, Repr

/-- Embeds the derived PartialEq of Variable: the span field is marked
ignored, so only the name strings are compared. -/
def Variable.beq (a b : Variable) : Bool :=
  a.name == b.name

/-- Embeds the derived Hash of Variable: the span field is marked ignored,
so the hash is computed from the name string alone. -/
def Variable.hashv (v : Variable) : UInt64 :=
  hash v.name

/-- Embeds Constant of parse/ast.rs: a bit literal or a number literal
(u64 modelled as Nat). -/
inductive Constant where
  | bit (b : Bool)
  | number (n : Nat)
deriving DecidableEq, Repr

/-- Embeds Value of sim/value.rs: the runtime representation of a signal
value; its single variant holds one bit. -/
inductive Value where
  | Bit (b : Bool)
deriving DecidableEq, Repr

/-- The kind of a runtime value. sim/value.rs declares exactly one kind,
the single bit. -/
inductive ValueKind where
  | bit
deriving DecidableEq, Repr

/-- The kind of a given runtime value. -/
def Value.kind : Value → ValueKind
  | .Bit _ => .bit

/-- Embeds TypeMismatch of sim/value.rs: a type-mismatch error carrying
the named source text and the offending span. -/
structure TypeMismatch where
  src : String
  span : Span
deriving DecidableEq, Repr

/-- Embeds ValueError of sim/value.rs: its single variant wraps a
TypeMismatch. -/
inductive ValueError where
  | assertionError (t : TypeMismatch)
deriving DecidableEq, Repr

/-- Embeds the From Constant for Value impl of sim/value.rs. The number
arm of the match is a todo panic in the source; the panic is modelled as
none, a bit literal as some. -/
def Value.fromConstant : Constant → Option Value
  | .bit n => some (.Bit n)
  | .number _ => none

/-- Embeds the BitAnd impl for Value of sim/value.rs. -/
def Value.bitand : Value → Value → Except ValueError Value
  | .Bit a, .Bit b => .ok (.Bit (a && b))

/-- Embeds the BitOr impl for Value of sim/value.rs. -/
def Value.bitor : Value → Value → Except ValueError Value
  | .Bit a, .Bit b => .ok (.Bit (a || b))

/-- Embeds the BitXor impl for Value of sim/value.rs. -/
def Value.bitxor : Value → Value → Except ValueError Value
  | .Bit a, .Bit b => .ok (.Bit (Bool.xor a b))

/-- Embeds the Not impl for Value of sim/value.rs. -/
def Value.bitnot : Value → Except ValueError Value
  | .Bit a => .ok (.Bit (!a))

/-- A result of the value algebra that is ok and holds a value of the
given kind. -/
def okOfKind (r : Except ValueError Value) (k : ValueKind) : Prop :=
  ∃ v, r = Except.ok v ∧ v.kind = k

/-- Whether a result of the value algebra is ok. -/
def isOkResult : Except ValueError Value → Bool
  | .ok _ => true
  | .error _ => false

/-- Embeds SimulationState of sim/simulation.rs as section 4.4 of the
spec describes it: Continue while schedule entries remain, Halted once
the schedule is exhausted. -/
inductive SimulationState where
  | Continue
  | Halted
deriving DecidableEq, Repr

/-- Embeds SimulationError of sim/mod.rs: a tagged union of assertion,
value and trace-export errors. AssertionError and VcdError live in files
outside the sources and are modelled by their diagnostic text. -/
inductive SimulationError where
  | assertionError (msg : String)
  | valueError (e : ValueError)
  | vcdError (msg : String)
deriving DecidableEq, Repr

/-- Modelled from the spec: a desugared test process
(parse/desugared_ast.rs is not among the sources). The runner inspects
only the name. Per the determinism property of section 8, the engine
built from a process yields a fixed sequence of step outcomes, recorded
here as stepResults: the outcome of each successive step call, an error
from the construction of the simulation being a leading error entry. -/
structure Process where
  name : Variable
  stepResults : List (Except SimulationError SimulationState)

/-- Modelled from the spec: the desugared Program
(parse/desugared_ast.rs is not among the sources). The simulator reads
only its list of tests, kept in declaration order. -/
structure Program where
  tests : List Process

/-- Embeds the driving loop of Simulator.execute_process in sim/mod.rs:
while let Continue = simulation.step() with question-mark propagation. An
error outcome stops the loop at once and is returned; a Halted outcome
stops it with success; an exhausted outcome list means the loop has
halted. -/
def runLoop : List (Except SimulationError SimulationState) → Except SimulationError Unit
  | [] => .ok ()
  | .error e :: _ => .error e
  | .ok .Halted :: _ => .ok ()
  | .ok .Continue :: rest => runLoop rest

/-- Embeds Simulator.execute_process in sim/mod.rs over the modelled
engine: instantiation, linking and simulation of one test process, run
by the step loop over its recorded step outcomes. -/
def executeProcess (p : Process) : Except SimulationError Unit :=
  runLoop p.stepResults

/-- The sequence of states the driving loop observes together with its
outcome; the value-change trace of a run is a function of this sequence,
the engine being deterministic. -/
def runLoopTrace : List (Except SimulationError SimulationState) →
    List SimulationState × Except SimulationError Unit
  | [] => ([], .ok ())
  | .error e :: _ => ([], .error e)
  | .ok .Halted :: _ => ([SimulationState.Halted], .ok ())
  | .ok .Continue :: rest =>
    ((SimulationState.Continue :: (runLoopTrace rest).1), (runLoopTrace rest).2)

/-- Embeds the loop shared by Simulator.run_all_tests and the body of
Simulator.run_test in sim/mod.rs: execute each process of the list in
order, stopping at the first error, which is returned. -/
def runSeq : List Process → Except SimulationError Unit
  | [] => .ok ()
  | t :: ts =>
    match executeProcess t with
    | .error e => .error e
    | .ok _ => runSeq ts

/-- Embeds the loop of Simulator.run_test in sim/mod.rs: visit the tests
in declaration order and run each one whose name field equals the given
name, propagating the first error. -/
def runTestAux (name : String) : List Process → Except SimulationError Unit
  | [] => .ok ()
  | t :: ts =>
    if t.name.name == name then
      match executeProcess t with
      | .error e => .error e
      | .ok _ => runTestAux name ts
    else
      runTestAux name ts

/-- Embeds Simulator.run_test in sim/mod.rs. -/
def runTest (p : Program) (name : String) : Except SimulationError Unit :=
  runTestAux name p.tests

/-- Embeds Simulator.run_all_tests in sim/mod.rs. -/
def runAllTests (p : Program) : Except SimulationError Unit :=
  runSeq p.tests

/-- The tests of a program whose declared name equals the given string,
in declaration order. -/
def matchingTests (p : Program) (name : String) : List Process :=
  p.tests.filter (fun t => t.name.name == name)

/-- A concrete process named m whose run succeeds, for witnesses. -/
def procOkM : Process :=
  ⟨⟨"m", none⟩, [Except.ok SimulationState.Continue, Except.ok SimulationState.Halted]⟩

/-- A concrete process named m whose second step fails, for witnesses. -/
def procFailM : Process :=
  ⟨⟨"m", none⟩,
    [Except.ok SimulationState.Continue, Except.error (SimulationError.vcdError "boom")]⟩

/-- A concrete process named z whose run succeeds, for witnesses. -/
def procOkZ : Process :=
  ⟨⟨"z", none⟩, [Except.ok SimulationState.Halted]⟩

/-- Running a list of processes in order succeeds when every one of them
succeeds. -/
theorem runSeq_ok_of_all (l : List Process)
    (h : ∀ t ∈ l, executeProcess t = Except.ok ()) : runSeq l = Except.ok () := by
  induction l with
  | nil => rfl
  | cons t ts ih =>
    have ht := h t (List.mem_cons_self t ts)
    simp only [runSeq, ht]
    exact ih fun u hu => h u (List.mem_cons_of_mem _ hu)

/-- Running a list of processes in order returns the error of the first
failing process, whatever follows it. -/
theorem runSeq_first_error (pre : List Process) (t : Process)
    (post : List Process) (e : SimulationError)
    (hpre : ∀ u ∈ pre, executeProcess u = Except.ok ())
    (ht : executeProcess t = Except.error e) :
    runSeq (pre ++ t :: post) = Except.error e := by
  induction pre with
  | nil => simp only [List.nil_append, runSeq, ht]
  | cons u us ih =>
    have hu := hpre u (List.mem_cons_self u us)
    simp only [List.cons_append, runSeq, hu]
    exact ih fun v hv => hpre v (List.mem_cons_of_mem _ hv)

/-- The loop of run_test equals running the name-filtered test list in
order. -/
theorem runTestAux_eq_filter (name : String) (l : List Process) :
    runTestAux name l = runSeq (l.filter fun t => t.name.name == name) := by
  induction l with
  | nil => rfl
  | cons t ts ih =>
    cases hb : (t.name.name == name) with
    | true =>
      simp only [runTestAux, hb, if_true, List.filter_cons, runSeq]
      cases hex : executeProcess t with
      | error e => rfl
      | ok u => exact ih
    | false =>
      simp only [runTestAux, hb, Bool.false_eq_true, if_false, List.filter_cons]
      exact ih

/-- Claim C3: and, or, xor and not on operands of the same value kind
return ok with a value of that same kind. The spec further requires a
type-mismatch error, carrying the offending span, whenever the operand
kinds differ; the first conjunct shows any two values share their kind,
the bit being the only kind, so that requirement is vacuously met. -/
theorem c3_ops_same_kind_ok (a b : Value) :
    a.kind = b.kind ∧
    okOfKind (a.bitand b) a.kind ∧ okOfKind (a.bitor b) a.kind ∧
    okOfKind (a.bitxor b) a.kind ∧ okOfKind a.bitnot a.kind := by
  cases a with
  | Bit x =>
    cases b with
    | Bit y =>
      exact ⟨rfl, ⟨_, rfl, rfl⟩, ⟨_, rfl, rfl⟩, ⟨_, rfl, rfl⟩, ⟨_, rfl, rfl⟩⟩

/-- Claim C4: equality and hashing of signal names ignore the source
location: for all spans, equality of two Variables reduces to equality
of their name strings, so the same name with different spans compares
equal and hashes identically, while different names compare unequal. -/
theorem c4_variable_eq_hash_ignore_span (n m : String) (s1 s2 : Option Span) :
    Variable.beq ⟨n, s1⟩ ⟨m, s2⟩ = (n == m) ∧
    Variable.hashv ⟨n, s1⟩ = Variable.hashv ⟨n, s2⟩ :=
  ⟨rfl, rfl⟩

/-- Claim C5: construction of a runtime value from a literal constant
maps bit literals directly: converting the bit literal b yields the bit
value b, for every boolean b. -/
theorem c5_fromConstant_bit (b : Bool) :
    Value.fromConstant (.bit b) = some (.Bit b) := rfl

/-- Claim C8: conversion from a constant to a runtime value is not
total: the number arm of the match in the From impl is an unimplemented
todo panic, modelled as none, so for every number n the conversion
yields neither a value nor a structured error. -/
theorem c8_fromConstant_number_panics (n : Nat) :
    Value.fromConstant (.number n) = none := rfl

/-- Claim C9: the value algebra never fails: and, or, xor and not return
ok on all runtime values, and every value is of the single bit kind, so
the type-mismatch error branch is unreachable. -/
theorem c9_ops_never_fail (a b : Value) :
    isOkResult (a.bitand b) = true ∧ isOkResult (a.bitor b) = true ∧
    isOkResult (a.bitxor b) = true ∧ isOkResult a.bitnot = true ∧
    a.kind = ValueKind.bit := by
  cases a with
  | Bit x =>
    cases b with
    | Bit y => exact ⟨rfl, rfl, rfl, rfl, rfl⟩

/-- Claim C1: run_test elaborates, links and simulates exactly the tests
whose name equals the given string, in declaration order: it agrees with
running the matching tests in sequence, returns ok when every matching
test succeeds, and returns the first error among the matching tests, the
matching tests after the failing one never being run (the result is that
error for every continuation post of the matching list). -/
theorem c1_runTest_matching_order (p : Program) (name : String) :
    runTest p name = runSeq (matchingTests p name) ∧
    ((∀ t ∈ matchingTests p name, executeProcess t = Except.ok ()) →
      runTest p name = Except.ok ()) ∧
    (∀ pre t post e, matchingTests p name = pre ++ t :: post →
      (∀ u ∈ pre, executeProcess u = Except.ok ()) →
      executeProcess t = Except.error e →
      runTest p name = Except.error e) := by
  have base : runTest p name = runSeq (matchingTests p name) :=
    runTestAux_eq_filter name p.tests
  refine ⟨base, ?_, ?_⟩
  · intro h
    rw [base]
    exact runSeq_ok_of_all _ h
  · intro pre t post e hsplit hpre ht
    rw [base, hsplit]
    exact runSeq_first_error pre t post e hpre ht

/-- Witness for claim C1: in a program with a test named z and three
tests named m of which the second fails, run_test m returns the error of
the failing test although a passing test named m follows it. -/
theorem c1_runTest_matching_order_witness :
    runTest ⟨[procOkZ, procOkM, procFailM, procOkM]⟩ "m" =
      Except.error (SimulationError.vcdError "boom") := by
  refine (c1_runTest_matching_order ⟨[procOkZ, procOkM, procFailM, procOkM]⟩ "m").2.2
    [procOkM] procFailM [procOkM] (SimulationError.vcdError "boom") rfl ?_ rfl
  intro u hu
  rw [List.mem_singleton] at hu
  subst hu
  rfl

/-- Claim C2: run_all_tests runs every test in declaration order and
aborts the whole run at the first failing test, returning that error:
the run equals running the full test list in sequence, succeeds when
every test succeeds, and returns the error of the first failing test,
the tests declared after it never being run (the result is that error
for every continuation post of the test list). -/
theorem c2_runAllTests_abort_first (p : Program) :
    runAllTests p = runSeq p.tests ∧
    ((∀ t ∈ p.tests, executeProcess t = Except.ok ()) →
      runAllTests p = Except.ok ()) ∧
    (∀ pre t post e, p.tests = pre ++ t :: post →
      (∀ u ∈ pre, executeProcess u = Except.ok ()) →
      executeProcess t = Except.error e →
      runAllTests p = Except.error e) := by
  refine ⟨rfl, fun h => runSeq_ok_of_all _ h, ?_⟩
  intro pre t post e hsplit hpre ht
  show runSeq p.tests = Except.error e
  rw [hsplit]
  exact runSeq_first_error pre t post e hpre ht

/-- Witness for claim C2: in a program whose second test fails,
run_all_tests returns the error of that test although a passing test
follows it. -/
theorem c2_runAllTests_abort_first_witness :
    runAllTests ⟨[procOkZ, procFailM, procOkM]⟩ =
      Except.error (SimulationError.vcdError "boom") := by
  refine (c2_runAllTests_abort_first ⟨[procOkZ, procFailM, procOkM]⟩).2.2
    [procOkZ] procFailM [procOkM] (SimulationError.vcdError "boom") rfl ?_ rfl
  intro u hu
  rw [List.mem_singleton] at hu
  subst hu
  rfl

/-- Claim C6: within one test, an error returned by a step is fatal: as
soon as a step outcome is an error, the driving loop of execute_process
stops calling step, the remaining schedule post of that test is
abandoned whatever it contains, and the error is propagated to the
caller; the statement concerns one process only, so no other test is
affected. -/
theorem c6_step_error_fatal (v : Variable)
    (pre post : List (Except SimulationError SimulationState))
    (e : SimulationError)
    (h : ∀ x ∈ pre, x = Except.ok SimulationState.Continue) :
    executeProcess ⟨v, pre ++ Except.error e :: post⟩ = Except.error e := by
  show runLoop (pre ++ Except.error e :: post) = Except.error e
  induction pre with
  | nil => rfl
  | cons x xs ih =>
    have hx := h x (List.mem_cons_self x xs)
    subst hx
    exact ih fun y hy => h y (List.mem_cons_of_mem _ hy)

/-- Witness for claim C6: a process whose second step fails returns that
error although a further step outcome follows in the schedule. -/
theorem c6_step_error_fatal_witness :
    executeProcess ⟨⟨"t", none⟩,
      [Except.ok SimulationState.Continue,
        Except.error (SimulationError.assertionError "fail"),
        Except.ok SimulationState.Continue]⟩ =
      Except.error (SimulationError.assertionError "fail") := by
  refine c6_step_error_fatal ⟨"t", none⟩ [Except.ok SimulationState.Continue]
    [Except.ok SimulationState.Continue] (SimulationError.assertionError "fail") ?_
  intro x hx
  rw [List.mem_singleton] at hx
  exact hx

/-- Claim C7: test execution is deterministic: two executions of the
same test process yield the same outcome and the same observed state
sequence, and the outcome agrees with the one recorded in the trace.
The engine is modelled, as the spec mandates, as a pure function of the
process, so two runs coincide definitionally. -/
theorem c7_deterministic (p : Process) :
    executeProcess p = executeProcess p ∧
    runLoopTrace p.stepResults = runLoopTrace p.stepResults ∧
    executeProcess p = (runLoopTrace p.stepResults).2 := by
  refine ⟨rfl, rfl, ?_⟩
  show runLoop p.stepResults = (runLoopTrace p.stepResults).2
  generalize p.stepResults = l
  induction l with
  | nil => rfl
  | cons x rest ih =>
    cases x with
    | error e => rfl
    | ok s =>
      cases s with
      | Continue => exact ih
      | Halted => rfl

/-- Claim C10: when no test of the program bears the given name,
run_test returns ok, indistinguishable from every matching test having
passed; an unknown test name is not reported as an error. -/
theorem c10_unknown_name_ok (p : Program) (name : String)
    (h : ∀ t ∈ p.tests, t.name.name ≠ name) :
    runTest p name = Except.ok () := by
  show runTestAux name p.tests = Except.ok ()
  have main : ∀ l : List Process,
      (∀ t ∈ l, t.name.name ≠ name) → runTestAux name l = Except.ok () := by
    intro l
    induction l with
    | nil => intro _; rfl
    | cons t ts ih =>
      intro hl
      have ht : t.name.name ≠ name := hl t (List.mem_cons_self t ts)
      have hb : (t.name.name == name) = false := beq_eq_false_iff_ne.mpr ht
      simp only [runTestAux, hb, Bool.false_eq_true, if_false]
      exact ih fun u hu => hl u (List.mem_cons_of_mem _ hu)
  exact main p.tests h

/-- Witness for claim C10: a program whose only test is named m returns
ok from run_test on the unknown name nope. -/
theorem c10_unknown_name_ok_witness :
    runTest ⟨[procOkM]⟩ "nope" = Except.ok () := by
  refine c10_unknown_name_ok ⟨[procOkM]⟩ "nope" ?_
  intro t ht
  rw [List.mem_singleton] at ht
  subst ht
  decide

end Hithlain
